import Mathlib

/-!
Shallow embedding of the redis-cached-product-api repository
(`src/models.py`, `src/schemas.py`, `src/cache.py`, `src/services.py`)
and verification of the specification's claims about its
cache-aside consistency protocol.

Modelling conventions:
* A Python `float` price is modelled as `Rat` (the codec treats it
  opaquely: `json.dumps`/`json.loads` round-trips it exactly).
* The string stored in Redis is abstracted to `Option Json`:
  `some j` stands for a non-empty string that `json.loads` parses to
  the JSON value `j`; `none` stands for an empty or unparseable string
  (in `get_product_from_cache` both end in the caught-exception /
  falsy branch that returns `None`).
* A raised Python exception escaping `get_product_by_id`
  (`TypeError` from `Product(**d)`, `KeyError` from `d["id"]`) is the
  `ReadResult.error` outcome.
-/

namespace RedisProductApi

/-- JSON values, the image of Python's `json.loads`. -/
inductive Json where
  | null : Json
  | bool : Bool → Json
  | num : Rat → Json
  | str : String → Json
  | arr : List Json → Json
  | obj : List (String × Json) → Json

/-- Python truthiness of a parsed JSON value (`if cached_product:`).
`json.loads` of an object literal keeps the last occurrence of a
duplicated key, so a non-empty key/value list is a non-empty dict. -/
def Json.truthy : Json → Bool
  | .null => false
  | .bool b => b
  | .num q => q != 0
  | .str s => s != ""
  | .arr l => !l.isEmpty
  | .obj l => !l.isEmpty

/-- Lookup in a parsed JSON object: Python dict semantics keep the
last binding of a duplicated key (`d.get(k)` / `d[k]`). -/
def dictGetLast (kvs : List (String × Json)) (k : String) : Option Json :=
  kvs.foldl (fun acc kv => if kv.1 = k then some kv.2 else acc) none

/-- The Product record as stored durably (`models.py`, class Product):
`id`, `name`, `description` strings, `price` float, `stock_quantity`
integer. -/
structure Product where
  id : String
  name : String
  description : String
  price : Rat
  stock_quantity : Int

/-- `Product.to_dict` (`models.py` lines 19-27): the five fields as a
flat mapping, exactly what `set_product_in_cache` serializes. -/
def Product.to_dict (p : Product) : List (String × Json) :=
  [("id", .str p.id), ("name", .str p.name),
   ("description", .str p.description), ("price", .num p.price),
   ("stock_quantity", .num (p.stock_quantity : Rat))]

/-- The in-memory object the read path hands back.  SQLAlchemy's
declarative constructor performs no type checks and leaves unset
columns as `None`, so each attribute is an arbitrary JSON value or
Python `None` (`none`). -/
structure PyProduct where
  id : Option Json
  name : Option Json
  description : Option Json
  price : Option Json
  stock_quantity : Option Json

/-- The in-memory view of a durable record (every field set, with its
proper constructor). -/
def Product.toPy (p : Product) : PyProduct :=
  { id := some (.str p.id), name := some (.str p.name),
    description := some (.str p.description),
    price := some (.num p.price),
    stock_quantity := some (.num (p.stock_quantity : Rat)) }

/-- The five column names of the `Product` table. -/
def productFields : List String :=
  ["id", "name", "description", "price", "stock_quantity"]

/-- Keyword names `Product(**kwargs)` accepts.  SQLAlchemy's
declarative constructor raises `TypeError` only for a keyword that is
not an attribute of the `Product` class (a `hasattr` check), so
besides the five columns it accepts class attributes such as the
`to_dict` method, the Base `metadata` and the declared
`__tablename__`; their values merely shadow the attribute on the
instance and never touch the five columns.  The class's remaining
attribute names (assorted dunders and mapper internals) are not
enumerated here and fall to the error branch — an explicit
under-approximation; no theorem below asserts anything about the
error branch except at the concrete key `"bogus"`, which is not a
class attribute. -/
def productClassAttrs : List String :=
  productFields ++ ["to_dict", "metadata", "__tablename__"]

/-- `Product(**cached_product)` followed by
`product.id = cached_product["id"]` (`services.py` lines 64-65):
* a non-dict value raises `TypeError` (`**` needs a mapping);
* a dict with a keyword that is not a `Product` class attribute
  raises `TypeError` (see `productClassAttrs`);
* a dict without `"id"` raises `KeyError` at the re-assignment;
* otherwise the object carries the dict's values at the five column
  names, missing columns left as `None`; values bound to non-column
  attribute names only shadow those attributes and are invisible to
  the five fields the caller reads.  No structural or invariant
  validation happens anywhere on this path. -/
def reconstructProduct (j : Json) : Except Unit PyProduct :=
  match j with
  | .obj kvs =>
    if kvs.all (fun kv => productClassAttrs.contains kv.1) then
      match dictGetLast kvs "id" with
      | some idv =>
        .ok { id := some idv, name := dictGetLast kvs "name",
              description := dictGetLast kvs "description",
              price := dictGetLast kvs "price",
              stock_quantity := dictGetLast kvs "stock_quantity" }
      | none => .error ()
    else .error ()
  | _ => .error ()

/-! ## The cache connector (`cache.py`, class RedisCache) -/

/-- One Redis entry: key, stored string (abstracted, see module
comment) and the TTL it was written with. -/
structure CacheEntry where
  key : String
  wire : Option Json
  ttl : Nat

/-- Connector state: `connected = false` is the degraded state
(`self.redis_client is None`). -/
structure Cache where
  connected : Bool
  entries : List CacheEntry

def cacheLookup : List CacheEntry → String → Option (Option Json × Nat)
  | [], _ => none
  | e :: es, k => if e.key = k then some (e.wire, e.ttl) else cacheLookup es k

def cacheRemove (es : List CacheEntry) (k : String) : List CacheEntry :=
  es.filter (fun e => e.key != k)

/-- `_get_cache_key` (`cache.py` line 36-38). -/
def get_cache_key (product_id : String) : String :=
  "product:" ++ product_id

/-- Python `f"product:{x}"` renders `x` with `str`; the only value the
service ever passes is `to_dict`'s string id, so only the `.str` case
is reachable from this system; the remaining cases are a best-effort
rendering. -/
def jsonText : Json → String
  | .str s => s
  | .num q => toString q
  | .bool b => if b then "True" else "False"
  | .null => "None"
  | .arr _ => "<list>"
  | .obj _ => "<dict>"

/-- `get_product_from_cache` (`cache.py` lines 40-67): degraded → miss;
absent key → miss; empty/unparseable string → miss (falsy string or
caught `json.loads` exception); otherwise the parsed JSON value. -/
def get_product_from_cache (c : Cache) (product_id : String) : Option Json :=
  if c.connected then
    match cacheLookup c.entries (get_cache_key product_id) with
    | none => none
    | some (w, _) => w
  else none

/-- `set_product_in_cache` (`cache.py` lines 69-98): no-op when
degraded; no-op when the dict has no truthy `"id"`; otherwise `SETEX`
of `json.dumps(product_dict)` under `product:{id}` with the caller's
TTL or the configured default. -/
def set_product_in_cache (ttlDefault : Nat) (c : Cache)
    (product_dict : List (String × Json)) (ttl_seconds : Option Nat) : Cache :=
  if c.connected then
    match dictGetLast product_dict "id" with
    | none => c
    | some idv =>
      if idv.truthy then
        let k := get_cache_key (jsonText idv)
        { c with entries :=
            { key := k, wire := some (.obj product_dict),
              ttl := ttl_seconds.getD ttlDefault } :: cacheRemove c.entries k }
      else c
  else c

/-- `invalidate_product_cache` (`cache.py` lines 100-121): no-op when
degraded; otherwise `DEL product:{product_id}`. -/
def invalidate_product_cache (c : Cache) (product_id : String) : Cache :=
  if c.connected then
    { c with entries := cacheRemove c.entries (get_cache_key product_id) }
  else c

/-! ## The service layer (`services.py`, class ProductService)

The durable store is a list of records looked up by the `id` column
(`db.query(Product).filter(Product.id == product_id).first()`).
`storeCalls` counts database round-trips, the counter property 8
of the spec's test plan refers to. -/

structure SysState where
  store : List Product
  cache : Cache
  storeCalls : Nat

/-- Point lookup by primary key. -/
def storeLookup (st : List Product) (i : String) : Option Product :=
  st.find? (fun p => p.id == i)

/-- Commit of an in-place ORM field update of the record with id `i`. -/
def storeReplace (st : List Product) (i : String) (p2 : Product) : List Product :=
  st.map (fun q => if q.id == i then p2 else q)

/-- Commit of `db.delete(product)`. -/
def storeDelete (st : List Product) (i : String) : List Product :=
  st.filter (fun q => q.id != i)

/-- `ProductCreate` (`schemas.py` lines 5-21): all four payload fields
required and validated (`min_length=1`, `max_length=255`, `gt=0`,
`ge=0`). -/
structure ProductCreate where
  name : String
  description : String
  price : Rat
  stock_quantity : Int

/-- `ProductUpdate` (`schemas.py` lines 24-30): every field optional;
`none` is an unset field (`model_dump(exclude_unset=True)` drops it).
The schema carries no `id` field. -/
structure ProductUpdate where
  name : Option String
  description : Option String
  price : Option Rat
  stock_quantity : Option Int

/-- Observable calls the service issues, in program order. -/
inductive Event where
  | storeQuery : String → Event
  | storeCommit : String → Event
  | cacheSet : String → Event
  | cacheInvalidate : String → Event

/-- Outcome of `get_product_by_id` as seen by the caller:
a returned object, a returned `None`, or a raised exception. -/
inductive ReadResult where
  | found : PyProduct → ReadResult
  | notFound : ReadResult
  | error : ReadResult

/-- `create_product` (`services.py` lines 14-39): store-only; the id is
generated externally (uuid4 default) and passed in here; committing a
duplicate primary key raises `IntegrityError`, modelled as `none`. -/
def create_product (s : SysState) (newId : String) (d : ProductCreate) :
    Option Product × SysState × List Event :=
  match storeLookup s.store newId with
  | some _ => (none, { s with storeCalls := s.storeCalls + 1 }, [])
  | none =>
    let p : Product :=
      { id := newId, name := d.name, description := d.description,
        price := d.price, stock_quantity := d.stock_quantity }
    (some p,
     { s with store := p :: s.store, storeCalls := s.storeCalls + 1 },
     [.storeCommit newId])

/-- The cache-miss continuation of the read path (`services.py`
lines 68-78): query the store; if found, populate the cache from
`product.to_dict()` with the default TTL, then return the record. -/
def readMissPath (ttlDefault : Nat) (s : SysState) (product_id : String) :
    ReadResult × SysState × List Event :=
  match storeLookup s.store product_id with
  | some p =>
    (.found p.toPy,
     { s with cache := set_product_in_cache ttlDefault s.cache p.to_dict none,
              storeCalls := s.storeCalls + 1 },
     [.storeQuery product_id, .cacheSet (get_cache_key product_id)])
  | none =>
    (.notFound, { s with storeCalls := s.storeCalls + 1 },
     [.storeQuery product_id])

/-- `get_product_by_id` (`services.py` lines 41-78): probe the cache;
a truthy parsed value is reconstructed with `Product(**d)` (which may
raise); anything falsy or absent falls through to the store. -/
def get_product_by_id (ttlDefault : Nat) (s : SysState) (product_id : String) :
    ReadResult × SysState × List Event :=
  match get_product_from_cache s.cache product_id with
  | some j =>
    if j.truthy then
      match reconstructProduct j with
      | .ok p => (.found p, s, [])
      | .error _ => (.error, s, [])
    else readMissPath ttlDefault s product_id
  | none => readMissPath ttlDefault s product_id

/-- `setattr` application of `model_dump(exclude_unset=True)`:
provided fields overwrite, unset fields keep their stored value; the
schema cannot carry `id`. -/
def applyUpdate (p : Product) (u : ProductUpdate) : Product :=
  { id := p.id,
    name := u.name.getD p.name,
    description := u.description.getD p.description,
    price := u.price.getD p.price,
    stock_quantity := u.stock_quantity.getD p.stock_quantity }

/-- `update_product` (`services.py` lines 80-116): query; not found →
`None`, cache untouched; found → commit the field updates, then
invalidate the cache entry, then return the updated record. -/
def update_product (s : SysState) (product_id : String) (u : ProductUpdate) :
    Option Product × SysState × List Event :=
  match storeLookup s.store product_id with
  | none =>
    (none, { s with storeCalls := s.storeCalls + 1 }, [.storeQuery product_id])
  | some p =>
    let p2 := applyUpdate p u
    (some p2,
     { store := storeReplace s.store product_id p2,
       cache := invalidate_product_cache s.cache product_id,
       storeCalls := s.storeCalls + 1 },
     [.storeQuery product_id, .storeCommit product_id,
      .cacheInvalidate product_id])

/-- `delete_product` (`services.py` lines 118-147): query; not found →
`False`, cache untouched; found → commit the deletion, then invalidate
the cache entry, then return `True`. -/
def delete_product (s : SysState) (product_id : String) :
    Bool × SysState × List Event :=
  match storeLookup s.store product_id with
  | none =>
    (false, { s with storeCalls := s.storeCalls + 1 }, [.storeQuery product_id])
  | some _ =>
    (true,
     { store := storeDelete s.store product_id,
       cache := invalidate_product_cache s.cache product_id,
       storeCalls := s.storeCalls + 1 },
     [.storeQuery product_id, .storeCommit product_id,
      .cacheInvalidate product_id])

/-! ## Request sequences -/

/-- One service request. -/
inductive Op where
  | create : String → ProductCreate → Op
  | read : String → Op
  | update : String → ProductUpdate → Op
  | del : String → Op

/-- The caller-visible result of one request. -/
inductive Res where
  | created : Option Product → Res
  | got : ReadResult → Res
  | updated : Option Product → Res
  | deleted : Bool → Res

def applyOp (ttlDefault : Nat) (s : SysState) : Op → Res × SysState
  | .create i d => ((create_product s i d).1 |> Res.created, (create_product s i d).2.1)
  | .read i => ((get_product_by_id ttlDefault s i).1 |> Res.got, (get_product_by_id ttlDefault s i).2.1)
  | .update i u => ((update_product s i u).1 |> Res.updated, (update_product s i u).2.1)
  | .del i => ((delete_product s i).1 |> Res.deleted, (delete_product s i).2.1)

/-- Run a request sequence, collecting visible results and the final
state. -/
def run (ttlDefault : Nat) : List Op → SysState → List Res × SysState
  | [], s => ([], s)
  | op :: ops, s =>
    let r := applyOp ttlDefault s op
    let rest := run ttlDefault ops r.2
    (r.1 :: rest.1, rest.2)

/-- Every state the system passes through, the initial one included. -/
def runStates (ttlDefault : Nat) : List Op → SysState → List SysState
  | [], s => [s]
  | op :: ops, s => s :: runStates ttlDefault ops (applyOp ttlDefault s op).2

/-! ## Derived notions used by the specification's claims -/

/-- The Data Model invariants for a Product (spec section 3). -/
def validProduct (p : Product) : Prop :=
  p.id ≠ "" ∧ p.name ≠ "" ∧ p.name.length ≤ 255 ∧ p.description ≠ "" ∧
  0 < p.price ∧ 0 ≤ p.stock_quantity

/-- `json.dumps(product.to_dict())` as stored by `set_product_in_cache`:
always a parseable string for the five-field object. -/
def encodeProduct (p : Product) : Option Json := some (.obj p.to_dict)

/-- The cache probe comes back empty-handed as far as the service is
concerned: either nothing (absent / degraded / unparseable) or a falsy
parsed value. -/
def probeMiss (o : Option Json) : Prop :=
  ∀ j, o = some j → j.truthy = false

/-- Every occurrence of a cache-invalidate call for `i` is preceded by
a store-commit for `i`. -/
def commitBeforeInvalidate (evs : List Event) (i : String) : Prop :=
  ∀ n : Nat, evs[n]? = some (Event.cacheInvalidate i) →
    ∃ m : Nat, m < n ∧ evs[m]? = some (Event.storeCommit i)

/-- The protocol invariant a healthy run maintains: every cache entry
is the faithful encoding of a record currently in the store, keyed by
that record's id. -/
def CacheConsistent (st : List Product) (c : Cache) : Prop :=
  ∀ e ∈ c.entries, ∃ p, e.key = get_cache_key p.id ∧
    storeLookup st p.id = some p ∧ e.wire = some (.obj p.to_dict)

/-! ## Helper lemmas -/

lemma get_cache_key_inj {a b : String} (h : get_cache_key a = get_cache_key b) :
    a = b := by
  unfold get_cache_key at h
  rw [String.congr_append, String.congr_append] at h
  have hd := congrArg String.data h
  exact String.ext (List.append_cancel_left hd)

lemma cacheLookup_cacheRemove_self (es : List CacheEntry) (k : String) :
    cacheLookup (cacheRemove es k) k = none := by
  induction es with
  | nil => rfl
  | cons e es ih =>
    by_cases h : e.key = k
    · simpa [cacheRemove, h] using ih
    · simpa [cacheRemove, h, cacheLookup] using ih

lemma mem_cacheRemove {es : List CacheEntry} {k : String} {e : CacheEntry}
    (h : e ∈ cacheRemove es k) : e ∈ es ∧ e.key ≠ k := by
  unfold cacheRemove at h
  have h1 := List.mem_of_mem_filter h
  have h2 := List.of_mem_filter h
  exact ⟨h1, by simpa using h2⟩

lemma cacheLookup_some_mem {es : List CacheEntry} {k : String}
    {w : Option Json} {t : Nat} (h : cacheLookup es k = some (w, t)) :
    ∃ e ∈ es, e.key = k ∧ e.wire = w ∧ e.ttl = t := by
  induction es with
  | nil => simp [cacheLookup] at h
  | cons e es ih =>
    by_cases hk : e.key = k
    · simp only [cacheLookup, hk, if_pos] at h
      refine ⟨e, List.mem_cons_self e es, hk, ?_, ?_⟩
      · exact congrArg Prod.fst (Option.some.inj h)
      · exact congrArg Prod.snd (Option.some.inj h)
    · simp only [cacheLookup, hk, if_neg, if_false] at h
      obtain ⟨e', he', hk', hw', ht'⟩ := ih h
      exact ⟨e', List.mem_cons_of_mem _ he', hk', hw', ht'⟩

lemma storeLookup_eq_id {st : List Product} {i : String} {p : Product}
    (h : storeLookup st i = some p) : p.id = i := by
  have := List.find?_some h
  exact eq_of_beq (by simpa using this)

lemma storeLookup_cons_ne {q : Product} {st : List Product} {j : String}
    (h : q.id ≠ j) : storeLookup (q :: st) j = storeLookup st j := by
  unfold storeLookup
  rw [List.find?_cons_of_neg]
  simpa using h

lemma storeReplace_cons (q : Product) (st : List Product) (i : String)
    (p2 : Product) :
    storeReplace (q :: st) i p2 =
      (if q.id == i then p2 else q) :: storeReplace st i p2 := rfl

lemma storeLookup_replace_ne {st : List Product} {i j : String} {p2 : Product}
    (hp2 : p2.id = i) (hne : j ≠ i) :
    storeLookup (storeReplace st i p2) j = storeLookup st j := by
  induction st with
  | nil => rfl
  | cons q st ih =>
    rw [storeReplace_cons]
    by_cases hq : q.id = i
    · have hql : (q.id == i) = true := by simpa using hq
      rw [if_pos hql, storeLookup_cons_ne (by rw [hp2]; exact fun h => hne h.symm),
        storeLookup_cons_ne (by rw [hq]; exact fun h => hne h.symm), ih]
    · have hql : (q.id == i) = false := by simpa using hq
      rw [hql]
      simp only [Bool.false_eq_true, if_false]
      by_cases hqj : q.id = j
      · unfold storeLookup
        rw [List.find?_cons_of_pos, List.find?_cons_of_pos] <;> simpa using hqj
      · rw [storeLookup_cons_ne hqj, storeLookup_cons_ne hqj, ih]

lemma storeLookup_replace_self {st : List Product} {i : String}
    {p p2 : Product} (hp2 : p2.id = i) (h : storeLookup st i = some p) :
    storeLookup (storeReplace st i p2) i = some p2 := by
  induction st with
  | nil => simp [storeLookup] at h
  | cons q st ih =>
    rw [storeReplace_cons]
    by_cases hq : q.id = i
    · have hql : (q.id == i) = true := by simpa using hq
      rw [if_pos hql]
      unfold storeLookup
      rw [List.find?_cons_of_pos]
      simpa using hp2
    · have hql : (q.id == i) = false := by simpa using hq
      rw [hql]
      simp only [Bool.false_eq_true, if_false]
      rw [storeLookup_cons_ne hq]
      exact ih (by rwa [storeLookup_cons_ne hq] at h)

lemma storeLookup_delete_ne {st : List Product} {i j : String} (hne : j ≠ i) :
    storeLookup (storeDelete st i) j = storeLookup st j := by
  induction st with
  | nil => rfl
  | cons q st ih =>
    by_cases hq : q.id = i
    · have hql : (q.id != i) = false := by simp [hq]
      have h1 : storeDelete (q :: st) i = storeDelete st i := by
        simp [storeDelete, hql]
      rw [h1, ih, storeLookup_cons_ne (by rw [hq]; exact fun h => hne h.symm)]
    · have hql : (q.id != i) = true := by simp [hq]
      have h1 : storeDelete (q :: st) i = q :: storeDelete st i := by
        simp [storeDelete, hql]
      rw [h1]
      by_cases hqj : q.id = j
      · unfold storeLookup
        rw [List.find?_cons_of_pos, List.find?_cons_of_pos] <;> simpa using hqj
      · rw [storeLookup_cons_ne hqj, storeLookup_cons_ne hqj, ih]

lemma storeLookup_delete_self (st : List Product) (i : String) :
    storeLookup (storeDelete st i) i = none := by
  induction st with
  | nil => rfl
  | cons q st ih =>
    by_cases hq : q.id = i
    · have hql : (q.id != i) = false := by simp [hq]
      have h1 : storeDelete (q :: st) i = storeDelete st i := by
        simp [storeDelete, hql]
      rw [h1, ih]
    · have hql : (q.id != i) = true := by simp [hq]
      have h1 : storeDelete (q :: st) i = q :: storeDelete st i := by
        simp [storeDelete, hql]
      rw [h1, storeLookup_cons_ne hq, ih]

/-- The codec round-trip at the heart of the read path: the dict
written by `set_product_in_cache` reconstructs to the record's
in-memory view. -/
lemma reconstruct_to_dict (p : Product) :
    reconstructProduct (.obj p.to_dict) = .ok p.toPy := rfl

lemma to_dict_truthy (p : Product) : (Json.obj p.to_dict).truthy = true := rfl

lemma dictGetLast_to_dict_id (p : Product) :
    dictGetLast p.to_dict "id" = some (.str p.id) := rfl

/-- A value the hit path reconstructs successfully is truthy: the dict
is non-empty because it holds an `"id"` binding. -/
lemma reconstruct_ok_truthy {j : Json} {q : PyProduct}
    (h : reconstructProduct j = .ok q) : j.truthy = true := by
  cases j with
  | obj kvs =>
    cases kvs with
    | nil => simp [reconstructProduct, dictGetLast] at h
    | cons kv kvs => simp [Json.truthy]
  | null => simp [reconstructProduct] at h
  | bool b => simp [reconstructProduct] at h
  | num q' => simp [reconstructProduct] at h
  | str s => simp [reconstructProduct] at h
  | arr l => simp [reconstructProduct] at h

lemma set_connected (ttl : Nat) (c : Cache) (d : List (String × Json))
    (t : Option Nat) : (set_product_in_cache ttl c d t).connected = c.connected := by
  unfold set_product_in_cache
  split
  · split
    · rfl
    · split
      · rfl
      · rfl
  · rfl

lemma invalidate_connected (c : Cache) (i : String) :
    (invalidate_product_cache c i).connected = c.connected := by
  unfold invalidate_product_cache
  cases hc : c.connected <;> simp [hc]

lemma set_degraded (ttl : Nat) (c : Cache) (d : List (String × Json))
    (t : Option Nat) (h : c.connected = false) :
    set_product_in_cache ttl c d t = c := by
  unfold set_product_in_cache
  simp [h]

lemma invalidate_degraded (c : Cache) (i : String) (h : c.connected = false) :
    invalidate_product_cache c i = c := by
  unfold invalidate_product_cache
  simp [h]

/-- `set_product_in_cache` on a record's dict, healthy connector,
non-empty id: an overwrite of the entry at the record's key. -/
lemma set_to_dict_connected (ttl : Nat) (c : Cache) (p : Product)
    (hc : c.connected = true) (hid : p.id ≠ "") :
    set_product_in_cache ttl c p.to_dict none =
      { c with entries :=
          { key := get_cache_key p.id, wire := some (.obj p.to_dict),
            ttl := ttl } :: cacheRemove c.entries (get_cache_key p.id) } := by
  unfold set_product_in_cache
  rw [dictGetLast_to_dict_id]
  have ht : (Json.str p.id).truthy = true := by
    simp [Json.truthy]
    exact hid
  simp [hc, ht, jsonText]

/-- `set_product_in_cache` on a record's dict whose id is empty:
the falsy-id guard skips the write. -/
lemma set_to_dict_empty_id (ttl : Nat) (c : Cache) (p : Product)
    (hid : p.id = "") :
    set_product_in_cache ttl c p.to_dict none = c := by
  unfold set_product_in_cache
  rw [dictGetLast_to_dict_id]
  have ht : (Json.str p.id).truthy = false := by
    simp [Json.truthy, hid]
  cases hc : c.connected <;> simp [hc, ht]

/-- After an invalidate call, the connector's probe for that id comes
back absent, healthy or degraded alike. -/
lemma get_after_invalidate (c : Cache) (i : String) :
    get_product_from_cache (invalidate_product_cache c i) i = none := by
  unfold get_product_from_cache invalidate_product_cache
  cases hc : c.connected <;> simp [hc, cacheLookup_cacheRemove_self]

/-- A consistent cache holds no entry for an id the store lacks. -/
lemma cacheLookup_none_of_consistent {st : List Product} {c : Cache}
    (hcons : CacheConsistent st c) {i : String}
    (h : storeLookup st i = none) :
    cacheLookup c.entries (get_cache_key i) = none := by
  cases hl : cacheLookup c.entries (get_cache_key i) with
  | none => rfl
  | some wt =>
    obtain ⟨w, t⟩ := wt
    obtain ⟨e, he, hk, -, -⟩ := cacheLookup_some_mem hl
    obtain ⟨p, hkey, hst, -⟩ := hcons e he
    rw [hk] at hkey
    rw [get_cache_key_inj hkey] at h
    rw [h] at hst
    exact Option.noConfusion hst

/-- The read path collapses to its cache-miss continuation whenever
the probe yields nothing the service considers truthy. -/
lemma get_eq_missPath (ttl : Nat) {s : SysState} {X : String}
    (h : probeMiss (get_product_from_cache s.cache X)) :
    get_product_by_id ttl s X = readMissPath ttl s X := by
  unfold get_product_by_id
  cases hg : get_product_from_cache s.cache X with
  | none => rfl
  | some j =>
    have := h j hg
    simp [this]

lemma readMissPath_fst (ttl : Nat) (s : SysState) (X : String) :
    (readMissPath ttl s X).1 =
      match storeLookup s.store X with
      | some p => .found p.toPy
      | none => .notFound := by
  unfold readMissPath
  cases storeLookup s.store X <;> rfl

lemma commitBeforeInvalidate_triple (X : String) :
    commitBeforeInvalidate
      [.storeQuery X, .storeCommit X, .cacheInvalidate X] X := by
  intro n hn
  match n with
  | 0 => simp at hn
  | 1 => simp at hn
  | 2 => exact ⟨1, by omega, rfl⟩
  | n + 3 => simp at hn

/-! ## Concrete fixtures for witnesses and counterexamples -/

def pW : Product :=
  { id := "a", name := "W", description := "d", price := 10, stock_quantity := 5 }

def u0 : ProductUpdate := ⟨none, none, some 20, none⟩

def hitState : SysState :=
  { store := [pW],
    cache := { connected := true,
               entries := [{ key := get_cache_key "a",
                             wire := some (.obj pW.to_dict), ttl := 60 }] },
    storeCalls := 0 }

def missState : SysState :=
  { store := [pW], cache := { connected := true, entries := [] },
    storeCalls := 0 }

def emptyState : SysState :=
  { store := [], cache := { connected := true, entries := [] },
    storeCalls := 0 }

def corruptEntryState : SysState :=
  { store := [pW],
    cache := { connected := true,
               entries := [{ key := get_cache_key "a",
                             wire := some (.obj [("bogus", .num 1)]),
                             ttl := 60 }] },
    storeCalls := 0 }

def unparseableEntryState : SysState :=
  { store := [pW],
    cache := { connected := true,
               entries := [{ key := get_cache_key "a", wire := none,
                             ttl := 60 }] },
    storeCalls := 0 }

def invalidHitState : SysState :=
  { store := [],
    cache := { connected := true,
               entries := [{ key := get_cache_key "a",
                             wire := some (.obj [("id", .str ""),
                                                 ("price", .num (-5))]),
                             ttl := 60 }] },
    storeCalls := 0 }

/-! ## The claims -/

/-- C1: for every update or delete on an id present in the store, the
call sequence is store-query, store-commit, cache-invalidate — the
commit strictly precedes the invalidation — and after the write a
direct cache probe for that id returns absent, whatever the cache held
before and whether or not the connector is degraded. -/
theorem claim_C1 (s : SysState) (X : String) (u : ProductUpdate) (p : Product)
    (h : storeLookup s.store X = some p) :
    ((update_product s X u).2.2 =
        [.storeQuery X, .storeCommit X, .cacheInvalidate X] ∧
      commitBeforeInvalidate (update_product s X u).2.2 X ∧
      get_product_from_cache (update_product s X u).2.1.cache X = none) ∧
    ((delete_product s X).2.2 =
        [.storeQuery X, .storeCommit X, .cacheInvalidate X] ∧
      commitBeforeInvalidate (delete_product s X).2.2 X ∧
      get_product_from_cache (delete_product s X).2.1.cache X = none) := by
  have h1 : update_product s X u =
      (some (applyUpdate p u),
       { store := storeReplace s.store X (applyUpdate p u),
         cache := invalidate_product_cache s.cache X,
         storeCalls := s.storeCalls + 1 },
       [.storeQuery X, .storeCommit X, .cacheInvalidate X]) := by
    unfold update_product
    rw [h]
  have h2 : delete_product s X =
      (true,
       { store := storeDelete s.store X,
         cache := invalidate_product_cache s.cache X,
         storeCalls := s.storeCalls + 1 },
       [.storeQuery X, .storeCommit X, .cacheInvalidate X]) := by
    unfold delete_product
    rw [h]
  rw [h1, h2]
  exact ⟨⟨rfl, commitBeforeInvalidate_triple X, get_after_invalidate _ X⟩,
    ⟨rfl, commitBeforeInvalidate_triple X, get_after_invalidate _ X⟩⟩

/-- Witness for C1 at a concrete state in which the id is cached
before the write. -/
theorem claim_C1_witness :
    storeLookup hitState.store "a" = some pW ∧
    get_product_from_cache (update_product hitState "a" u0).2.1.cache "a" =
      none ∧
    get_product_from_cache (delete_product hitState "a").2.1.cache "a" =
      none :=
  ⟨rfl, (claim_C1 hitState "a" u0 pW rfl).1.2.2,
   (claim_C1 hitState "a" u0 pW rfl).2.2.2⟩

/-- C2 counterexample: the cache holds valid JSON that is not a
structurally valid Product (a key that is not even a `Product` class
attribute), the store does hold the record, yet the read raises
(`TypeError` inside `Product(**d)`) instead of falling back to the
store: the Record Store is never queried (no events) and the store's
answer is not returned. -/
theorem claim_C2_counterexample :
    storeLookup corruptEntryState.store "a" = some pW ∧
    (get_product_by_id 3600 corruptEntryState "a").1 = .error ∧
    (get_product_by_id 3600 corruptEntryState "a").1 ≠ .found pW.toPy ∧
    (get_product_by_id 3600 corruptEntryState "a").2.2 = [] := by
  refine ⟨rfl, rfl, ?_, rfl⟩
  intro hcon
  rw [show (get_product_by_id 3600 corruptEntryState "a").1 = .error from rfl]
    at hcon
  exact ReadResult.noConfusion hcon

/-- C2 (amended): only a cache entry that fails to parse as JSON, or
parses to a Python-falsy value, is treated exactly as absent — the
store is queried and its answer returned, and no error is raised.
Truthy corrupt entries are in general not recovered as misses:
depending on their keys they are surfaced to the caller as a corrupt
hit or raise an error (the counterexample raises and never reaches
the store). -/
theorem claim_C2 (ttl : Nat) (s : SysState) (X : String)
    (h : probeMiss (get_product_from_cache s.cache X)) :
    ((get_product_by_id ttl s X).1 =
      (get_product_by_id ttl
        { s with cache := { s.cache with
            entries := cacheRemove s.cache.entries (get_cache_key X) } }
        X).1) ∧
    (get_product_by_id ttl s X).1 ≠ .error ∧
    (storeLookup s.store X = none →
      (get_product_by_id ttl s X).1 = .notFound) ∧
    (∀ p, storeLookup s.store X = some p →
      (get_product_by_id ttl s X).1 = .found p.toPy) := by
  have h1 := get_eq_missPath ttl h
  have hp' : get_product_from_cache
      { s with cache := { s.cache with
          entries := cacheRemove s.cache.entries (get_cache_key X) } }.cache
      X = none := by
    unfold get_product_from_cache
    cases hc : s.cache.connected with
    | false => simp [hc]
    | true => simp [hc, cacheLookup_cacheRemove_self]
  have h2 : get_product_by_id ttl
      { s with cache := { s.cache with
          entries := cacheRemove s.cache.entries (get_cache_key X) } } X =
      readMissPath ttl
        { s with cache := { s.cache with
            entries := cacheRemove s.cache.entries (get_cache_key X) } } X := by
    unfold get_product_by_id
    rw [hp']
  refine ⟨?_, ?_, ?_, ?_⟩
  · rw [h1, h2, readMissPath_fst, readMissPath_fst]
  · rw [h1, readMissPath_fst]
    cases hst : storeLookup s.store X <;> intro hcon <;>
      exact ReadResult.noConfusion hcon
  · intro hst
    rw [h1, readMissPath_fst, hst]
  · intro p hst
    rw [h1, readMissPath_fst, hst]

/-- Witness for C2 at a concrete state whose cache entry is an
unparseable string. -/
theorem claim_C2_witness :
    (get_product_by_id 3600 unparseableEntryState "a").1 = .found pW.toPy ∧
    (get_product_by_id 3600 unparseableEntryState "a").1 ≠ .error :=
  ⟨(claim_C2 3600 unparseableEntryState "a"
      (by intro j hj; exact Option.noConfusion hj)).2.2.2 pW rfl,
   (claim_C2 3600 unparseableEntryState "a"
      (by intro j hj; exact Option.noConfusion hj)).2.1⟩

/-- C3 counterexample: a cache entry with an empty `id` and a negative
`price` (and no name, description or stock) is accepted as a hit and
returned to the caller, so decode does not fail on the empty id and
the accepted value violates every Data Model invariant it touches;
and an entry binding the non-column class attribute `to_dict` is also
accepted, so decode does not fail on bytes outside the five-column
shape either. -/
theorem claim_C3_counterexample :
    reconstructProduct (.obj [("id", .str ""), ("price", .num (-5))]) =
      .ok { id := some (.str ""), name := none, description := none,
            price := some (.num (-5)), stock_quantity := none } ∧
    (get_product_by_id 3600 invalidHitState "a").1 =
      .found { id := some (.str ""), name := none, description := none,
               price := some (.num (-5)), stock_quantity := none } ∧
    reconstructProduct (.obj [("id", .str "a"), ("to_dict", .num 1)]) =
      .ok { id := some (.str "a"), name := none, description := none,
            price := none, stock_quantity := none } :=
  ⟨rfl, rfl, rfl⟩

/-- C3 (amended): a cache entry the read path accepts as a hit is a
truthy JSON object carrying an `"id"` binding of any value (empty
included), and its five fields are taken verbatim from the object's
bindings at the column names — absent columns are `None`, bindings at
non-column attribute names are invisible to the fields, and no Data
Model invariant is checked on anything. -/
theorem claim_C3 (j : Json) (q : PyProduct)
    (h : reconstructProduct j = .ok q) :
    ∃ kvs, j = .obj kvs ∧
      (∃ v, dictGetLast kvs "id" = some v ∧ q.id = some v) ∧
      q.name = dictGetLast kvs "name" ∧
      q.description = dictGetLast kvs "description" ∧
      q.price = dictGetLast kvs "price" ∧
      q.stock_quantity = dictGetLast kvs "stock_quantity" ∧
      j.truthy = true := by
  have ht := reconstruct_ok_truthy h
  cases j with
  | null => exact absurd h (by simp [reconstructProduct])
  | bool b => exact absurd h (by simp [reconstructProduct])
  | num q' => exact absurd h (by simp [reconstructProduct])
  | str s => exact absurd h (by simp [reconstructProduct])
  | arr l => exact absurd h (by simp [reconstructProduct])
  | obj kvs =>
    refine ⟨kvs, rfl, ?_⟩
    rw [show reconstructProduct (.obj kvs) =
        (if kvs.all (fun kv => productClassAttrs.contains kv.1) then
          match dictGetLast kvs "id" with
          | some idv =>
            .ok { id := some idv, name := dictGetLast kvs "name",
                  description := dictGetLast kvs "description",
                  price := dictGetLast kvs "price",
                  stock_quantity := dictGetLast kvs "stock_quantity" }
          | none => .error ()
        else .error ()) from rfl] at h
    by_cases hall : kvs.all (fun kv => productClassAttrs.contains kv.1)
    · rw [if_pos hall] at h
      cases hid : dictGetLast kvs "id" with
      | none =>
        rw [hid] at h
        exact Except.noConfusion h
      | some v =>
        rw [hid] at h
        have hq := Except.ok.inj h
        subst hq
        exact ⟨⟨v, rfl, rfl⟩, rfl, rfl, rfl, rfl, ht⟩
    · rw [if_neg hall] at h
      exact Except.noConfusion h

/-- Witness for C3 at the encoding of a concrete valid product. -/
theorem claim_C3_witness :
    ∃ kvs, Json.obj pW.to_dict = .obj kvs ∧
      (∃ v, dictGetLast kvs "id" = some v ∧ pW.toPy.id = some v) ∧
      pW.toPy.name = dictGetLast kvs "name" ∧
      pW.toPy.description = dictGetLast kvs "description" ∧
      pW.toPy.price = dictGetLast kvs "price" ∧
      pW.toPy.stock_quantity = dictGetLast kvs "stock_quantity" ∧
      (Json.obj pW.to_dict).truthy = true :=
  claim_C3 (.obj pW.to_dict) pW.toPy rfl

/-- C4: for every valid Product, the encoding written by the cache
populator parses back and reconstructs to exactly that product's
in-memory view, field for field. -/
theorem claim_C4 (p : Product) (_h : validProduct p) :
    encodeProduct p = some (.obj p.to_dict) ∧
    (Json.obj p.to_dict).truthy = true ∧
    reconstructProduct (.obj p.to_dict) = .ok p.toPy :=
  ⟨rfl, rfl, rfl⟩

/-- Witness for C4 at a concrete valid product. -/
theorem claim_C4_witness :
    validProduct pW ∧
    reconstructProduct (.obj pW.to_dict) = .ok pW.toPy :=
  ⟨by simp only [validProduct]; decide,
   (claim_C4 pW (by simp only [validProduct]; decide)).2.2⟩

/-- C5: for an id the store lacks (and a cache obeying the protocol
invariant when healthy), read returns not-found, update returns
`None`, delete returns `False`; in all three cases the cache is left
untouched and the only call issued is the store query — no cache
population, no invalidation. -/
theorem claim_C5 (ttl : Nat) (s : SysState) (X : String) (u : ProductUpdate)
    (h : storeLookup s.store X = none)
    (hcons : s.cache.connected = true → CacheConsistent s.store s.cache) :
    ((get_product_by_id ttl s X).1 = .notFound ∧
      (get_product_by_id ttl s X).2.1.cache = s.cache ∧
      (get_product_by_id ttl s X).2.2 = [.storeQuery X]) ∧
    (update_product s X u =
      (none, { s with storeCalls := s.storeCalls + 1 }, [.storeQuery X])) ∧
    (delete_product s X =
      (false, { s with storeCalls := s.storeCalls + 1 }, [.storeQuery X])) := by
  have hprobe : get_product_from_cache s.cache X = none := by
    unfold get_product_from_cache
    cases hc : s.cache.connected with
    | false => simp
    | true => simp [cacheLookup_none_of_consistent (hcons hc) h]
  have h1 : get_product_by_id ttl s X =
      (.notFound, { s with storeCalls := s.storeCalls + 1 },
       [.storeQuery X]) := by
    unfold get_product_by_id
    rw [hprobe]
    unfold readMissPath
    rw [h]
  refine ⟨⟨?_, ?_, ?_⟩, ?_, ?_⟩
  · rw [h1]
  · rw [h1]
  · rw [h1]
  · unfold update_product
    rw [h]
  · unfold delete_product
    rw [h]

/-- Witness for C5 at the empty store and an empty healthy cache. -/
theorem claim_C5_witness :
    storeLookup emptyState.store "z" = none ∧
    (get_product_by_id 3600 emptyState "z").1 = .notFound ∧
    (update_product emptyState "z" u0).1 = none ∧
    (delete_product emptyState "z").1 = false := by
  have hc := claim_C5 3600 emptyState "z" u0 rfl
    (fun _ => fun e he => absurd he (List.not_mem_nil e))
  refine ⟨rfl, hc.1.1, ?_, ?_⟩
  · rw [hc.2.1]
  · rw [hc.2.2]

/-- C7: a read whose cache probe yields a value the service can
reconstruct returns that decoded value and leaves the entire state —
store, store-call counter and cache — untouched, issuing no calls at
all beyond the probe. -/
theorem claim_C7 (ttl : Nat) (s : SysState) (X : String) (j : Json)
    (q : PyProduct)
    (h1 : get_product_from_cache s.cache X = some j)
    (h2 : reconstructProduct j = .ok q) :
    get_product_by_id ttl s X = (.found q, s, []) ∧
    (get_product_by_id ttl s X).2.1.storeCalls = s.storeCalls ∧
    (get_product_by_id ttl s X).2.1.store = s.store := by
  have ht := reconstruct_ok_truthy h2
  have hmain : get_product_by_id ttl s X = (.found q, s, []) := by
    unfold get_product_by_id
    rw [h1]
    simp [ht, h2]
  exact ⟨hmain, by rw [hmain], by rw [hmain]⟩

/-- Witness for C7 at a concrete state whose cache holds the encoding
of a record. -/
theorem claim_C7_witness :
    get_product_from_cache hitState.cache "a" = some (.obj pW.to_dict) ∧
    get_product_by_id 3600 hitState "a" = (.found pW.toPy, hitState, []) :=
  ⟨rfl, (claim_C7 3600 hitState "a" (.obj pW.to_dict) pW.toPy rfl rfl).1⟩

/-- C8: a read that misses the cache and finds the record in the store
returns the record; with a healthy connector the cache now holds the
record's encoding under the record's key with the configured default
TTL, and with a degraded connector the cache is unchanged while the
returned record is the same. -/
theorem claim_C8 (ttl : Nat) (s : SysState) (X : String) (p : Product)
    (h1 : probeMiss (get_product_from_cache s.cache X))
    (h2 : storeLookup s.store X = some p) (h3 : X ≠ "") :
    (get_product_by_id ttl s X).1 = .found p.toPy ∧
    (s.cache.connected = true →
      cacheLookup (get_product_by_id ttl s X).2.1.cache.entries
        (get_cache_key X) = some (some (.obj p.to_dict), ttl)) ∧
    (s.cache.connected = false →
      (get_product_by_id ttl s X).2.1.cache = s.cache) := by
  have hid : p.id = X := storeLookup_eq_id h2
  have hm := get_eq_missPath ttl h1
  have h4 : readMissPath ttl s X =
      (.found p.toPy,
       { s with cache := set_product_in_cache ttl s.cache p.to_dict none,
                storeCalls := s.storeCalls + 1 },
       [.storeQuery X, .cacheSet (get_cache_key X)]) := by
    unfold readMissPath
    rw [h2]
  rw [hm, h4]
  refine ⟨rfl, ?_, ?_⟩
  · intro hc
    rw [set_to_dict_connected ttl s.cache p hc (by rw [hid]; exact h3)]
    simp only
    rw [hid]
    unfold cacheLookup
    rw [if_pos rfl]
  · intro hc
    simp only
    rw [set_degraded ttl s.cache p.to_dict none hc]

/-- Witness for C8 at a concrete miss against a store holding the
record. -/
theorem claim_C8_witness :
    storeLookup missState.store "a" = some pW ∧
    (get_product_by_id 3600 missState "a").1 = .found pW.toPy ∧
    cacheLookup (get_product_by_id 3600 missState "a").2.1.cache.entries
      (get_cache_key "a") = some (some (.obj pW.to_dict), 3600) := by
  have hc := claim_C8 3600 missState "a" pW
    (by intro j hj; exact Option.noConfusion hj) rfl (by decide)
  exact ⟨rfl, hc.1, hc.2.1 rfl⟩

/-- C10: an update on a stored id changes exactly the provided fields;
`id` (which the update schema cannot carry) and every unset field keep
their prior values, both in the returned record and in the persisted
store, and no other id's record is touched. -/
theorem claim_C10 (s : SysState) (X : String) (u : ProductUpdate) (p : Product)
    (h : storeLookup s.store X = some p) :
    ∃ q : Product,
      (update_product s X u).1 = some q ∧
      q.id = p.id ∧
      (u.name = none → q.name = p.name) ∧
      (∀ v, u.name = some v → q.name = v) ∧
      (u.description = none → q.description = p.description) ∧
      (∀ v, u.description = some v → q.description = v) ∧
      (u.price = none → q.price = p.price) ∧
      (∀ v, u.price = some v → q.price = v) ∧
      (u.stock_quantity = none → q.stock_quantity = p.stock_quantity) ∧
      (∀ v, u.stock_quantity = some v → q.stock_quantity = v) ∧
      storeLookup (update_product s X u).2.1.store X = some q ∧
      (∀ y, y ≠ X →
        storeLookup (update_product s X u).2.1.store y =
          storeLookup s.store y) := by
  have hid : p.id = X := storeLookup_eq_id h
  have h1 : update_product s X u =
      (some (applyUpdate p u),
       { store := storeReplace s.store X (applyUpdate p u),
         cache := invalidate_product_cache s.cache X,
         storeCalls := s.storeCalls + 1 },
       [.storeQuery X, .storeCommit X, .cacheInvalidate X]) := by
    unfold update_product
    rw [h]
  have hq : (applyUpdate p u).id = X := by rw [applyUpdate, hid]
  refine ⟨applyUpdate p u, by rw [h1], rfl, ?_, ?_, ?_, ?_, ?_, ?_, ?_, ?_,
    ?_, ?_⟩
  · intro hv
    show u.name.getD p.name = p.name
    rw [hv, Option.getD_none]
  · intro v hv
    show u.name.getD p.name = v
    rw [hv, Option.getD_some]
  · intro hv
    show u.description.getD p.description = p.description
    rw [hv, Option.getD_none]
  · intro v hv
    show u.description.getD p.description = v
    rw [hv, Option.getD_some]
  · intro hv
    show u.price.getD p.price = p.price
    rw [hv, Option.getD_none]
  · intro v hv
    show u.price.getD p.price = v
    rw [hv, Option.getD_some]
  · intro hv
    show u.stock_quantity.getD p.stock_quantity = p.stock_quantity
    rw [hv, Option.getD_none]
  · intro v hv
    show u.stock_quantity.getD p.stock_quantity = v
    rw [hv, Option.getD_some]
  · rw [h1]
    exact storeLookup_replace_self hq h
  · intro y hy
    rw [h1]
    exact storeLookup_replace_ne hq hy

/-- Witness for C10: a price-only update at a concrete state. -/
theorem claim_C10_witness :
    storeLookup hitState.store "a" = some pW ∧
    ∃ q : Product,
      (update_product hitState "a" u0).1 = some q ∧
      q.id = pW.id ∧
      (u0.name = none → q.name = pW.name) ∧
      (∀ v, u0.name = some v → q.name = v) ∧
      (u0.description = none → q.description = pW.description) ∧
      (∀ v, u0.description = some v → q.description = v) ∧
      (u0.price = none → q.price = pW.price) ∧
      (∀ v, u0.price = some v → q.price = v) ∧
      (u0.stock_quantity = none → q.stock_quantity = pW.stock_quantity) ∧
      (∀ v, u0.stock_quantity = some v → q.stock_quantity = v) ∧
      storeLookup (update_product hitState "a" u0).2.1.store "a" = some q ∧
      (∀ y, y ≠ "a" →
        storeLookup (update_product hitState "a" u0).2.1.store y =
          storeLookup hitState.store y) :=
  ⟨rfl, claim_C10 hitState "a" u0 pW rfl⟩

/-! ## Global invariants over request sequences (claims C9 and C6) -/

def cacheKeys (c : Cache) : List String := c.entries.map CacheEntry.key

lemma cacheKeys_remove_subset {es : List CacheEntry} {k0 : String} :
    ∀ k ∈ (cacheRemove es k0).map CacheEntry.key,
      k ∈ es.map CacheEntry.key := by
  intro k hk
  obtain ⟨e, he, hke⟩ := List.mem_map.mp hk
  exact List.mem_map.mpr ⟨e, (mem_cacheRemove he).1, hke⟩

lemma cacheKeys_invalidate_subset (c : Cache) (i : String) :
    ∀ k ∈ cacheKeys (invalidate_product_cache c i), k ∈ cacheKeys c := by
  intro k hk
  unfold invalidate_product_cache at hk
  by_cases hc : c.connected = true
  · rw [if_pos hc] at hk
    exact cacheKeys_remove_subset k hk
  · rw [if_neg hc] at hk
    exact hk

lemma create_product_cache (s : SysState) (i : String) (d : ProductCreate) :
    (create_product s i d).2.1.cache = s.cache := by
  unfold create_product
  cases storeLookup s.store i <;> rfl

lemma readMissPath_cacheKeys (ttl : Nat) (s : SysState) (i : String) :
    ∀ k ∈ cacheKeys (readMissPath ttl s i).2.1.cache,
      k ∈ cacheKeys s.cache ∨
      ∃ i' p, k = get_cache_key i' ∧ storeLookup s.store i' = some p := by
  intro k hk
  unfold readMissPath at hk
  rcases hst : storeLookup s.store i with - | p
  · simp only [hst] at hk
    exact Or.inl hk
  · simp only [hst] at hk
    by_cases hc : s.cache.connected = true
    · by_cases hid : p.id = ""
      · rw [set_to_dict_empty_id ttl s.cache p hid] at hk
        exact Or.inl hk
      · rw [set_to_dict_connected ttl s.cache p hc hid] at hk
        simp only [cacheKeys, List.map_cons] at hk
        rcases List.mem_cons.mp hk with h1 | h1
        · exact Or.inr ⟨p.id, p, h1,
            by rw [storeLookup_eq_id hst]; exact hst⟩
        · exact Or.inl (cacheKeys_remove_subset k h1)
    · rw [set_degraded ttl s.cache p.to_dict none (by simpa using hc)] at hk
      exact Or.inl hk

/-- One request can add at most the key of an id the store holds right
now; every other key was already present. -/
lemma applyOp_cacheKeys (ttl : Nat) (s : SysState) (op : Op) :
    ∀ k ∈ cacheKeys (applyOp ttl s op).2.cache,
      k ∈ cacheKeys s.cache ∨
      ∃ i p, k = get_cache_key i ∧ storeLookup s.store i = some p := by
  intro k hk
  cases op with
  | create i d =>
    rw [show (applyOp ttl s (.create i d)).2 = (create_product s i d).2.1
      from rfl, create_product_cache] at hk
    exact Or.inl hk
  | read i =>
    rw [show (applyOp ttl s (.read i)).2 = (get_product_by_id ttl s i).2.1
      from rfl] at hk
    unfold get_product_by_id at hk
    rcases hg : get_product_from_cache s.cache i with - | j
    · simp only [hg] at hk
      exact readMissPath_cacheKeys ttl s i k hk
    · simp only [hg] at hk
      cases htr : j.truthy
      · rw [if_neg (by simp [htr])] at hk
        exact readMissPath_cacheKeys ttl s i k hk
      · rw [if_pos htr] at hk
        cases hrec : reconstructProduct j <;> simp only [hrec] at hk <;>
          exact Or.inl hk
  | update i u =>
    rw [show (applyOp ttl s (.update i u)).2 = (update_product s i u).2.1
      from rfl] at hk
    unfold update_product at hk
    rcases hst : storeLookup s.store i with - | p <;> simp only [hst] at hk
    · exact Or.inl hk
    · exact Or.inl (cacheKeys_invalidate_subset s.cache i k hk)
  | del i =>
    rw [show (applyOp ttl s (.del i)).2 = (delete_product s i).2.1
      from rfl] at hk
    unfold delete_product at hk
    rcases hst : storeLookup s.store i with - | p <;> simp only [hst] at hk
    · exact Or.inl hk
    · exact Or.inl (cacheKeys_invalidate_subset s.cache i k hk)

/-- Over a whole run, every cache key either was there at the start or
is the key of an id the store held at some intermediate state. -/
lemma run_cacheKeys (ttl : Nat) (ops : List Op) :
    ∀ s : SysState, ∀ k ∈ cacheKeys (run ttl ops s).2.cache,
      k ∈ cacheKeys s.cache ∨
      ∃ i p, k = get_cache_key i ∧
        ∃ s' ∈ runStates ttl ops s, storeLookup s'.store i = some p := by
  induction ops with
  | nil =>
    intro s k hk
    exact Or.inl hk
  | cons op ops ih =>
    intro s k hk
    have hk' : k ∈ cacheKeys (run ttl ops (applyOp ttl s op).2).2.cache := hk
    rcases ih (applyOp ttl s op).2 k hk' with h1 | ⟨i, p, hkey, s', hs', hst⟩
    · rcases applyOp_cacheKeys ttl s op k h1 with h2 | ⟨i, p, hkey, hst⟩
      · exact Or.inl h2
      · exact Or.inr ⟨i, p, hkey, s, List.mem_cons_self _ _, hst⟩
    · exact Or.inr ⟨i, p, hkey, s', List.mem_cons_of_mem _ hs', hst⟩

/-- C9: starting from an empty cache, every key ever held by the cache
is `product:{id}` for an id the store actually held at the moment the
entry was created (entries arise only from found reads), and the cache
setter never writes an entry for a dict lacking a truthy id. -/
theorem claim_C9 (ttl : Nat) (ops : List Op) (st0 : List Product) (b : Bool) :
    (∀ c d t, dictGetLast d "id" = none →
      set_product_in_cache ttl c d t = c) ∧
    (∀ c d t v, dictGetLast d "id" = some v → v.truthy = false →
      set_product_in_cache ttl c d t = c) ∧
    (∀ k ∈ cacheKeys (run ttl ops
        { store := st0, cache := { connected := b, entries := [] },
          storeCalls := 0 }).2.cache,
      ∃ i p, k = get_cache_key i ∧
        ∃ s' ∈ runStates ttl ops
          { store := st0, cache := { connected := b, entries := [] },
            storeCalls := 0 },
          storeLookup s'.store i = some p) := by
  refine ⟨?_, ?_, ?_⟩
  · intro c d t hd
    simp only [set_product_in_cache, hd, ite_self]
  · intro c d t v hd hv
    simp only [set_product_in_cache, hd, hv, Bool.false_eq_true, if_false,
      ite_self]
  · intro k hk
    rcases run_cacheKeys ttl ops _ k hk with h1 | h2
    · simp [cacheKeys] at h1
    · exact h2

/-- Witness for C9: one found read from an empty healthy cache; the
only key the final cache holds is the read id's key, minted while the
store held that record. -/
theorem claim_C9_witness :
    ∃ i p, "product:a" = get_cache_key i ∧
      ∃ s' ∈ runStates 3600 [Op.read "a"] missState,
        storeLookup s'.store i = some p :=
  (claim_C9 3600 [Op.read "a"] [pW] true).2.2 "product:a" (List.Mem.head _)

/-! ## Cache-outage transparency (claim C6) -/

lemma get_degraded (c : Cache) (i : String) (h : c.connected = false) :
    get_product_from_cache c i = none := by
  unfold get_product_from_cache
  simp [h]

lemma invalidate_connected_eq (c : Cache) (i : String)
    (h : c.connected = true) :
    invalidate_product_cache c i =
      { c with entries := cacheRemove c.entries (get_cache_key i) } := by
  unfold invalidate_product_cache
  rw [if_pos h]

lemma create_fresh_eq (s : SysState) (i : String) (d : ProductCreate)
    (h : storeLookup s.store i = none) :
    create_product s i d =
      (some ⟨i, d.name, d.description, d.price, d.stock_quantity⟩,
       { s with store := ⟨i, d.name, d.description, d.price,
                  d.stock_quantity⟩ :: s.store,
                storeCalls := s.storeCalls + 1 },
       [.storeCommit i]) := by
  unfold create_product
  rw [h]

lemma create_dup_eq (s : SysState) (i : String) (d : ProductCreate)
    (p : Product) (h : storeLookup s.store i = some p) :
    create_product s i d =
      (none, { s with storeCalls := s.storeCalls + 1 }, []) := by
  unfold create_product
  rw [h]

lemma readMissPath_found_eq (ttl : Nat) (s : SysState) (i : String)
    (p : Product) (h : storeLookup s.store i = some p) :
    readMissPath ttl s i =
      (.found p.toPy,
       { s with cache := set_product_in_cache ttl s.cache p.to_dict none,
                storeCalls := s.storeCalls + 1 },
       [.storeQuery i, .cacheSet (get_cache_key i)]) := by
  unfold readMissPath
  rw [h]

lemma readMissPath_notfound_eq (ttl : Nat) (s : SysState) (i : String)
    (h : storeLookup s.store i = none) :
    readMissPath ttl s i =
      (.notFound, { s with storeCalls := s.storeCalls + 1 },
       [.storeQuery i]) := by
  unfold readMissPath
  rw [h]

lemma update_found_eq (s : SysState) (i : String) (u : ProductUpdate)
    (p : Product) (h : storeLookup s.store i = some p) :
    update_product s i u =
      (some (applyUpdate p u),
       { store := storeReplace s.store i (applyUpdate p u),
         cache := invalidate_product_cache s.cache i,
         storeCalls := s.storeCalls + 1 },
       [.storeQuery i, .storeCommit i, .cacheInvalidate i]) := by
  unfold update_product
  rw [h]

lemma update_notfound_eq (s : SysState) (i : String) (u : ProductUpdate)
    (h : storeLookup s.store i = none) :
    update_product s i u =
      (none, { s with storeCalls := s.storeCalls + 1 },
       [.storeQuery i]) := by
  unfold update_product
  rw [h]

lemma delete_found_eq (s : SysState) (i : String) (p : Product)
    (h : storeLookup s.store i = some p) :
    delete_product s i =
      (true,
       { store := storeDelete s.store i,
         cache := invalidate_product_cache s.cache i,
         storeCalls := s.storeCalls + 1 },
       [.storeQuery i, .storeCommit i, .cacheInvalidate i]) := by
  unfold delete_product
  rw [h]

lemma delete_notfound_eq (s : SysState) (i : String)
    (h : storeLookup s.store i = none) :
    delete_product s i =
      (false, { s with storeCalls := s.storeCalls + 1 },
       [.storeQuery i]) := by
  unfold delete_product
  rw [h]

lemma get_hit_eq (ttl : Nat) (s : SysState) (i : String) (p : Product)
    (hprobe : get_product_from_cache s.cache i = some (.obj p.to_dict)) :
    get_product_by_id ttl s i = (.found p.toPy, s, []) := by
  unfold get_product_by_id
  rw [hprobe]
  simp [to_dict_truthy, reconstruct_to_dict]

lemma get_missProbe_eq (ttl : Nat) (s : SysState) (i : String)
    (hprobe : get_product_from_cache s.cache i = none) :
    get_product_by_id ttl s i = readMissPath ttl s i := by
  unfold get_product_by_id
  rw [hprobe]

/-- A healthy, consistent probe either misses or hits with the
current store record's encoding. -/
lemma probe_consistent (sh : SysState) (i : String)
    (hch : sh.cache.connected = true)
    (hcons : CacheConsistent sh.store sh.cache) :
    get_product_from_cache sh.cache i = none ∨
    ∃ p, storeLookup sh.store i = some p ∧ p.id = i ∧
      get_product_from_cache sh.cache i = some (.obj p.to_dict) := by
  cases hl : cacheLookup sh.cache.entries (get_cache_key i) with
  | none =>
    refine Or.inl ?_
    unfold get_product_from_cache
    rw [if_pos hch, hl]
  | some wt =>
    obtain ⟨w, t⟩ := wt
    obtain ⟨e, he, hk, hw, -⟩ := cacheLookup_some_mem hl
    obtain ⟨p, hkey, hstp, hwire⟩ := hcons e he
    have hpi : p.id = i := get_cache_key_inj (by rw [← hkey, hk])
    rw [hpi] at hstp
    refine Or.inr ⟨p, hstp, hpi, ?_⟩
    unfold get_product_from_cache
    rw [if_pos hch, hl]
    exact hw ▸ hwire

/-- Consistency is preserved when a found read repopulates the cache. -/
lemma consistent_after_populate (ttl : Nat) (sh : SysState) (i : String)
    (p : Product) (hch : sh.cache.connected = true)
    (hcons : CacheConsistent sh.store sh.cache)
    (hst2 : storeLookup sh.store i = some p) :
    CacheConsistent sh.store
      (set_product_in_cache ttl sh.cache p.to_dict none) := by
  by_cases hid : p.id = ""
  · rw [set_to_dict_empty_id ttl sh.cache p hid]
    exact hcons
  · rw [set_to_dict_connected ttl sh.cache p hch hid]
    intro e he
    rcases List.mem_cons.mp he with h1 | h1
    · exact ⟨p, by rw [h1], by rw [storeLookup_eq_id hst2]; exact hst2,
        by rw [h1]⟩
    · exact hcons e (mem_cacheRemove h1).1

/-- Consistency is preserved by a write at id `i`: the entry for `i`
is removed and no other id's store record changes. -/
lemma consistent_after_write (sh : SysState) (i : String)
    (st2 : List Product) (hch : sh.cache.connected = true)
    (hcons : CacheConsistent sh.store sh.cache)
    (hother : ∀ j, j ≠ i → storeLookup st2 j = storeLookup sh.store j) :
    CacheConsistent st2 (invalidate_product_cache sh.cache i) := by
  rw [invalidate_connected_eq sh.cache i hch]
  intro e he
  obtain ⟨he', hkne⟩ := mem_cacheRemove he
  obtain ⟨p', hkey, hstp', hwire⟩ := hcons e he'
  have hne : p'.id ≠ i := by
    intro hcontra
    rw [hcontra] at hkey
    exact hkne hkey
  exact ⟨p', hkey, by rw [hother p'.id hne]; exact hstp', hwire⟩

/-- One request under a healthy consistent cache and under a degraded
cache: same caller-visible result, same store afterwards, connectivity
of each side preserved, and consistency of the healthy side preserved. -/
lemma applyOp_outage (ttl : Nat) (op : Op) (sh sd : SysState)
    (hst : sh.store = sd.store)
    (hch : sh.cache.connected = true)
    (hcd : sd.cache.connected = false)
    (hcons : CacheConsistent sh.store sh.cache) :
    (applyOp ttl sh op).1 = (applyOp ttl sd op).1 ∧
    (applyOp ttl sh op).2.store = (applyOp ttl sd op).2.store ∧
    (applyOp ttl sh op).2.cache.connected = true ∧
    (applyOp ttl sd op).2.cache.connected = false ∧
    CacheConsistent (applyOp ttl sh op).2.store
      (applyOp ttl sh op).2.cache := by
  cases op with
  | create i d =>
    rcases hcr : storeLookup sh.store i with - | p
    · have hcr' : storeLookup sd.store i = none := by rw [← hst]; exact hcr
      have e1 := create_fresh_eq sh i d hcr
      have e2 := create_fresh_eq sd i d hcr'
      refine ⟨?_, ?_, ?_, ?_, ?_⟩
      · show Res.created (create_product sh i d).1 =
          Res.created (create_product sd i d).1
        rw [e1, e2]
      · show (create_product sh i d).2.1.store =
          (create_product sd i d).2.1.store
        rw [e1, e2]
        show _ :: sh.store = _ :: sd.store
        rw [hst]
      · show (create_product sh i d).2.1.cache.connected = true
        rw [e1]
        exact hch
      · show (create_product sd i d).2.1.cache.connected = false
        rw [e2]
        exact hcd
      · show CacheConsistent (create_product sh i d).2.1.store
          (create_product sh i d).2.1.cache
        rw [e1]
        intro e he
        obtain ⟨p', hkey, hstp', hwire⟩ := hcons e he
        have hne : p'.id ≠ i := by
          intro hcontra
          rw [hcontra] at hstp'
          rw [hcr] at hstp'
          exact Option.noConfusion hstp'
        refine ⟨p', hkey, ?_, hwire⟩
        show storeLookup (_ :: sh.store) p'.id = some p'
        rw [storeLookup_cons_ne (fun hcontra => hne hcontra.symm)]
        exact hstp'
    · have hcr' : storeLookup sd.store i = some p := by rw [← hst]; exact hcr
      have e1 := create_dup_eq sh i d p hcr
      have e2 := create_dup_eq sd i d p hcr'
      refine ⟨?_, ?_, ?_, ?_, ?_⟩
      · show Res.created (create_product sh i d).1 =
          Res.created (create_product sd i d).1
        rw [e1, e2]
      · show (create_product sh i d).2.1.store =
          (create_product sd i d).2.1.store
        rw [e1, e2]
        exact hst
      · show (create_product sh i d).2.1.cache.connected = true
        rw [e1]
        exact hch
      · show (create_product sd i d).2.1.cache.connected = false
        rw [e2]
        exact hcd
      · show CacheConsistent (create_product sh i d).2.1.store
          (create_product sh i d).2.1.cache
        rw [e1]
        exact hcons
  | read i =>
    rcases probe_consistent sh i hch hcons with hpn | ⟨p, hstp, hpi, hps⟩
    · have mh := get_missProbe_eq ttl sh i hpn
      have md := get_missProbe_eq ttl sd i (get_degraded sd.cache i hcd)
      rcases hst2 : storeLookup sh.store i with - | p
      · have hst2' : storeLookup sd.store i = none := by
          rw [← hst]; exact hst2
        have eh := readMissPath_notfound_eq ttl sh i hst2
        have ed := readMissPath_notfound_eq ttl sd i hst2'
        refine ⟨?_, ?_, ?_, ?_, ?_⟩
        · show Res.got (get_product_by_id ttl sh i).1 =
            Res.got (get_product_by_id ttl sd i).1
          rw [mh, md, eh, ed]
        · show (get_product_by_id ttl sh i).2.1.store =
            (get_product_by_id ttl sd i).2.1.store
          rw [mh, md, eh, ed]
          exact hst
        · show (get_product_by_id ttl sh i).2.1.cache.connected = true
          rw [mh, eh]
          exact hch
        · show (get_product_by_id ttl sd i).2.1.cache.connected = false
          rw [md, ed]
          exact hcd
        · show CacheConsistent (get_product_by_id ttl sh i).2.1.store
            (get_product_by_id ttl sh i).2.1.cache
          rw [mh, eh]
          exact hcons
      · have hst2' : storeLookup sd.store i = some p := by
          rw [← hst]; exact hst2
        have eh := readMissPath_found_eq ttl sh i p hst2
        have ed := readMissPath_found_eq ttl sd i p hst2'
        refine ⟨?_, ?_, ?_, ?_, ?_⟩
        · show Res.got (get_product_by_id ttl sh i).1 =
            Res.got (get_product_by_id ttl sd i).1
          rw [mh, md, eh, ed]
        · show (get_product_by_id ttl sh i).2.1.store =
            (get_product_by_id ttl sd i).2.1.store
          rw [mh, md, eh, ed]
          exact hst
        · show (get_product_by_id ttl sh i).2.1.cache.connected = true
          rw [mh, eh]
          show (set_product_in_cache ttl sh.cache p.to_dict none).connected =
            true
          rw [set_connected]
          exact hch
        · show (get_product_by_id ttl sd i).2.1.cache.connected = false
          rw [md, ed]
          show (set_product_in_cache ttl sd.cache p.to_dict none).connected =
            false
          rw [set_connected]
          exact hcd
        · show CacheConsistent (get_product_by_id ttl sh i).2.1.store
            (get_product_by_id ttl sh i).2.1.cache
          rw [mh, eh]
          exact consistent_after_populate ttl sh i p hch hcons hst2
    · have gh := get_hit_eq ttl sh i p hps
      have md := get_missProbe_eq ttl sd i (get_degraded sd.cache i hcd)
      have hst2' : storeLookup sd.store i = some p := by
        rw [← hst]; exact hstp
      have ed := readMissPath_found_eq ttl sd i p hst2'
      refine ⟨?_, ?_, ?_, ?_, ?_⟩
      · show Res.got (get_product_by_id ttl sh i).1 =
          Res.got (get_product_by_id ttl sd i).1
        rw [gh, md, ed]
      · show (get_product_by_id ttl sh i).2.1.store =
          (get_product_by_id ttl sd i).2.1.store
        rw [gh, md, ed]
        exact hst
      · show (get_product_by_id ttl sh i).2.1.cache.connected = true
        rw [gh]
        exact hch
      · show (get_product_by_id ttl sd i).2.1.cache.connected = false
        rw [md, ed]
        show (set_product_in_cache ttl sd.cache p.to_dict none).connected =
          false
        rw [set_connected]
        exact hcd
      · show CacheConsistent (get_product_by_id ttl sh i).2.1.store
          (get_product_by_id ttl sh i).2.1.cache
        rw [gh]
        exact hcons
  | update i u =>
    rcases hst2 : storeLookup sh.store i with - | p
    · have hst2' : storeLookup sd.store i = none := by rw [← hst]; exact hst2
      have e1 := update_notfound_eq sh i u hst2
      have e2 := update_notfound_eq sd i u hst2'
      refine ⟨?_, ?_, ?_, ?_, ?_⟩
      · show Res.updated (update_product sh i u).1 =
          Res.updated (update_product sd i u).1
        rw [e1, e2]
      · show (update_product sh i u).2.1.store =
          (update_product sd i u).2.1.store
        rw [e1, e2]
        exact hst
      · show (update_product sh i u).2.1.cache.connected = true
        rw [e1]
        exact hch
      · show (update_product sd i u).2.1.cache.connected = false
        rw [e2]
        exact hcd
      · show CacheConsistent (update_product sh i u).2.1.store
          (update_product sh i u).2.1.cache
        rw [e1]
        exact hcons
    · have hst2' : storeLookup sd.store i = some p := by
        rw [← hst]; exact hst2
      have e1 := update_found_eq sh i u p hst2
      have e2 := update_found_eq sd i u p hst2'
      have hp2 : (applyUpdate p u).id = i := by
        show p.id = i
        exact storeLookup_eq_id hst2
      refine ⟨?_, ?_, ?_, ?_, ?_⟩
      · show Res.updated (update_product sh i u).1 =
          Res.updated (update_product sd i u).1
        rw [e1, e2]
      · show (update_product sh i u).2.1.store =
          (update_product sd i u).2.1.store
        rw [e1, e2]
        show storeReplace sh.store i _ = storeReplace sd.store i _
        rw [hst]
      · show (update_product sh i u).2.1.cache.connected = true
        rw [e1]
        show (invalidate_product_cache sh.cache i).connected = true
        rw [invalidate_connected]
        exact hch
      · show (update_product sd i u).2.1.cache.connected = false
        rw [e2]
        show (invalidate_product_cache sd.cache i).connected = false
        rw [invalidate_connected]
        exact hcd
      · show CacheConsistent (update_product sh i u).2.1.store
          (update_product sh i u).2.1.cache
        rw [e1]
        exact consistent_after_write sh i _ hch hcons
          (fun j hj => storeLookup_replace_ne hp2 hj)
  | del i =>
    rcases hst2 : storeLookup sh.store i with - | p
    · have hst2' : storeLookup sd.store i = none := by rw [← hst]; exact hst2
      have e1 := delete_notfound_eq sh i hst2
      have e2 := delete_notfound_eq sd i hst2'
      refine ⟨?_, ?_, ?_, ?_, ?_⟩
      · show Res.deleted (delete_product sh i).1 =
          Res.deleted (delete_product sd i).1
        rw [e1, e2]
      · show (delete_product sh i).2.1.store =
          (delete_product sd i).2.1.store
        rw [e1, e2]
        exact hst
      · show (delete_product sh i).2.1.cache.connected = true
        rw [e1]
        exact hch
      · show (delete_product sd i).2.1.cache.connected = false
        rw [e2]
        exact hcd
      · show CacheConsistent (delete_product sh i).2.1.store
          (delete_product sh i).2.1.cache
        rw [e1]
        exact hcons
    · have hst2' : storeLookup sd.store i = some p := by
        rw [← hst]; exact hst2
      have e1 := delete_found_eq sh i p hst2
      have e2 := delete_found_eq sd i p hst2'
      refine ⟨?_, ?_, ?_, ?_, ?_⟩
      · show Res.deleted (delete_product sh i).1 =
          Res.deleted (delete_product sd i).1
        rw [e1, e2]
      · show (delete_product sh i).2.1.store =
          (delete_product sd i).2.1.store
        rw [e1, e2]
        show storeDelete sh.store i = storeDelete sd.store i
        rw [hst]
      · show (delete_product sh i).2.1.cache.connected = true
        rw [e1]
        show (invalidate_product_cache sh.cache i).connected = true
        rw [invalidate_connected]
        exact hch
      · show (delete_product sd i).2.1.cache.connected = false
        rw [e2]
        show (invalidate_product_cache sd.cache i).connected = false
        rw [invalidate_connected]
        exact hcd
      · show CacheConsistent (delete_product sh i).2.1.store
          (delete_product sh i).2.1.cache
        rw [e1]
        exact consistent_after_write sh i _ hch hcons
          (fun j hj => storeLookup_delete_ne hj)

/-- The outage equivalence, lifted to whole request sequences. -/
lemma run_outage (ttl : Nat) (ops : List Op) :
    ∀ sh sd : SysState, sh.store = sd.store →
      sh.cache.connected = true → sd.cache.connected = false →
      CacheConsistent sh.store sh.cache →
      (run ttl ops sh).1 = (run ttl ops sd).1 ∧
      (run ttl ops sh).2.store = (run ttl ops sd).2.store := by
  induction ops with
  | nil =>
    intro sh sd hst _ _ _
    exact ⟨rfl, hst⟩
  | cons op ops ih =>
    intro sh sd hst hch hcd hcons
    obtain ⟨h1, h2, h3, h4, h5⟩ := applyOp_outage ttl op sh sd hst hch hcd hcons
    obtain ⟨ih1, ih2⟩ := ih (applyOp ttl sh op).2 (applyOp ttl sd op).2 h2 h3 h4 h5
    constructor
    · show (applyOp ttl sh op).1 :: (run ttl ops (applyOp ttl sh op).2).1 =
        (applyOp ttl sd op).1 :: (run ttl ops (applyOp ttl sd op).2).1
      rw [h1, ih1]
    · exact ih2

/-- No request against a degraded connector surfaces a read error,
and the connector stays degraded. -/
lemma applyOp_degraded_no_error (ttl : Nat) (op : Op) (sd : SysState)
    (hcd : sd.cache.connected = false) :
    (applyOp ttl sd op).1 ≠ .got .error ∧
    (applyOp ttl sd op).2.cache.connected = false := by
  cases op with
  | create i d =>
    refine ⟨?_, ?_⟩
    · show Res.created (create_product sd i d).1 ≠ Res.got .error
      intro hcontra
      exact Res.noConfusion hcontra
    · show (create_product sd i d).2.1.cache.connected = false
      rw [create_product_cache]
      exact hcd
  | read i =>
    have md := get_missProbe_eq ttl sd i (get_degraded sd.cache i hcd)
    rcases hst2 : storeLookup sd.store i with - | p
    · have ed := readMissPath_notfound_eq ttl sd i hst2
      refine ⟨?_, ?_⟩
      · show Res.got (get_product_by_id ttl sd i).1 ≠ Res.got .error
        rw [md, ed]
        intro hcontra
        exact ReadResult.noConfusion (Res.got.inj hcontra)
      · show (get_product_by_id ttl sd i).2.1.cache.connected = false
        rw [md, ed]
        exact hcd
    · have ed := readMissPath_found_eq ttl sd i p hst2
      refine ⟨?_, ?_⟩
      · show Res.got (get_product_by_id ttl sd i).1 ≠ Res.got .error
        rw [md, ed]
        intro hcontra
        exact ReadResult.noConfusion (Res.got.inj hcontra)
      · show (get_product_by_id ttl sd i).2.1.cache.connected = false
        rw [md, ed]
        show (set_product_in_cache ttl sd.cache p.to_dict none).connected =
          false
        rw [set_connected]
        exact hcd
  | update i u =>
    rcases hst2 : storeLookup sd.store i with - | p
    · have e2 := update_notfound_eq sd i u hst2
      refine ⟨?_, ?_⟩
      · show Res.updated (update_product sd i u).1 ≠ Res.got .error
        intro hcontra
        exact Res.noConfusion hcontra
      · show (update_product sd i u).2.1.cache.connected = false
        rw [e2]
        exact hcd
    · have e2 := update_found_eq sd i u p hst2
      refine ⟨?_, ?_⟩
      · show Res.updated (update_product sd i u).1 ≠ Res.got .error
        intro hcontra
        exact Res.noConfusion hcontra
      · show (update_product sd i u).2.1.cache.connected = false
        rw [e2]
        show (invalidate_product_cache sd.cache i).connected = false
        rw [invalidate_connected]
        exact hcd
  | del i =>
    rcases hst2 : storeLookup sd.store i with - | p
    · have e2 := delete_notfound_eq sd i hst2
      refine ⟨?_, ?_⟩
      · show Res.deleted (delete_product sd i).1 ≠ Res.got .error
        intro hcontra
        exact Res.noConfusion hcontra
      · show (delete_product sd i).2.1.cache.connected = false
        rw [e2]
        exact hcd
    · have e2 := delete_found_eq sd i p hst2
      refine ⟨?_, ?_⟩
      · show Res.deleted (delete_product sd i).1 ≠ Res.got .error
        intro hcontra
        exact Res.noConfusion hcontra
      · show (delete_product sd i).2.1.cache.connected = false
        rw [e2]
        show (invalidate_product_cache sd.cache i).connected = false
        rw [invalidate_connected]
        exact hcd

lemma run_degraded_no_error (ttl : Nat) (ops : List Op) :
    ∀ sd : SysState, sd.cache.connected = false →
      ∀ r ∈ (run ttl ops sd).1, r ≠ .got .error := by
  induction ops with
  | nil =>
    intro sd _ r hr
    exact absurd hr (List.not_mem_nil r)
  | cons op ops ih =>
    intro sd hcd r hr
    have hstep := applyOp_degraded_no_error ttl op sd hcd
    have hr' : r ∈ (applyOp ttl sd op).1 ::
        (run ttl ops (applyOp ttl sd op).2).1 := hr
    rcases List.mem_cons.mp hr' with h1 | h1
    · rw [h1]
      exact hstep.1
    · exact ih (applyOp ttl sd op).2 hstep.2 r h1

/-- A process-start state: the given store, the given connector
state, no store calls yet. -/
def initState (st0 : List Product) (c : Cache) : SysState :=
  { store := st0, cache := c, storeCalls := 0 }

/-- C6: the same request sequence, run once against a healthy cache
started empty and once against a degraded connector (whatever its
stale entries), produces identical caller-visible results and
identical final stores; no degraded request errors — population and
invalidation are simply skipped. -/
theorem claim_C6 (ttl : Nat) (ops : List Op) (st0 : List Product)
    (es : List CacheEntry) :
    (run ttl ops (initState st0 ⟨true, []⟩)).1 =
      (run ttl ops (initState st0 ⟨false, es⟩)).1 ∧
    (run ttl ops (initState st0 ⟨true, []⟩)).2.store =
      (run ttl ops (initState st0 ⟨false, es⟩)).2.store ∧
    (∀ r ∈ (run ttl ops (initState st0 ⟨false, es⟩)).1,
      r ≠ .got .error) := by
  have h := run_outage ttl ops (initState st0 ⟨true, []⟩)
    (initState st0 ⟨false, es⟩)
    rfl rfl rfl (fun e he => absurd he (List.not_mem_nil e))
  exact ⟨h.1, h.2, run_degraded_no_error ttl ops _ rfl⟩

/-- Witness for C6: a concrete create-read-update-read-delete-read
scenario evaluated against both connector states. -/
theorem claim_C6_witness :
    (run 3600 [Op.create "b" ⟨"N", "D", 3, 7⟩, Op.read "b",
        Op.update "b" u0, Op.read "b", Op.del "b", Op.read "b"]
      (initState [pW] ⟨true, []⟩)).1 =
    (run 3600 [Op.create "b" ⟨"N", "D", 3, 7⟩, Op.read "b",
        Op.update "b" u0, Op.read "b", Op.del "b", Op.read "b"]
      (initState [pW] ⟨false, []⟩)).1 :=
  (claim_C6 3600 [Op.create "b" ⟨"N", "D", 3, 7⟩, Op.read "b",
      Op.update "b" u0, Op.read "b", Op.del "b", Op.read "b"] [pW] []).1

end RedisProductApi
